import Mathlib

set_option maxRecDepth 8000

/-!
Shallow embedding of the Thing REST resource of gabbi-hypothesis-demo.

The repository exposes a single model `Thing` (id, name) through a
`ModelSerializer` with fields `('id', 'name')` and a `ModelViewSet`
(src/app/api/thing.py), routed at `/app/api/things/`.  The model module
`app/models.py` is not among the provided sources, and the field
validation it induces is executed by the REST framework, which the
specification treats as an external collaborator; those parts are
modelled from the specification (sections 4.1 and 4.2), as indicated on
each definition.

Strings are modelled as `List Char`: Python `len` is `List.length` and
Python `str.strip()` is trimming whitespace from both ends.
-/

namespace GabbiDemo

/-- Whitespace test used by `strip`, modelling the character class
trimmed by Python `str.strip()`. -/
def ws (c : Char) : Bool := c.isWhitespace

/-- Python `str.strip()`: remove leading and trailing whitespace. -/
def strip (s : List Char) : List Char := (s.dropWhile ws).rdropWhile ws

/-- Validation failure taxonomy of spec section 7. -/
inductive ValidationError where
  | BlankNameError
  | NameTooLongError
deriving DecidableEq

/-- User-facing message carried by each validation error. -/
def errorMessage : ValidationError → List Char
  | ValidationError.BlankNameError => "This field may not be blank.".toList
  | ValidationError.NameTooLongError =>
      "Ensure this field has no more than 255 characters.".toList

/-- Modelled from the spec: the validation rule for the `name` field
(spec section 4.1).  The concrete validating code (the `Thing` model in
`app/models.py` together with the framework's field validation) is not
among the provided sources; only the serializer declaration and the
tests are.  Rule A: if the trimmed name is empty, fail with
`BlankNameError`.  Rule B: if the untrimmed name is longer than 255
characters, fail with `NameTooLongError`.  Otherwise succeed with the
trimmed name as the value to persist. -/
def validate (name : List Char) : Except ValidationError (List Char) :=
  if strip name = [] then Except.error ValidationError.BlankNameError
  else if name.length > 255 then Except.error ValidationError.NameTooLongError
  else Except.ok (strip name)

/-- The persisted record: spec section 3. -/
structure Thing where
  id : Nat
  name : List Char
deriving DecidableEq

/-- The entity store: the stored Things in insertion order, plus the next
id to assign.  Atomic single-record insert and lookup, as assumed of the
collaborator store. -/
structure Store where
  things : List Thing
  nextId : Nat
deriving DecidableEq

/-- The store before any Thing has been created. -/
def emptyStore : Store := ⟨[], 1⟩

/-- JSON values, as needed for the bodies exchanged by the API. -/
inductive JsonVal where
  | str (s : List Char)
  | num (n : Nat)
  | arr (elems : List JsonVal)
  | obj (fields : List (String × JsonVal))

/-- First field of a JSON object with the given key, if any. -/
def getField : JsonVal → String → Option JsonVal
  | JsonVal.obj fields, key => (fields.find? (fun f => f.1 == key)).map Prod.snd
  | _, _ => none

/-- The keys of a JSON object, in order. -/
def fieldNames : JsonVal → Option (List String)
  | JsonVal.obj fields => some (fields.map Prod.fst)
  | _ => none

/-- The string content of a JSON value, if it is a string. -/
def asStr : JsonVal → Option (List Char)
  | JsonVal.str s => some s
  | _ => none

/-- The numeric content of a JSON value, if it is a number. -/
def asNum : JsonVal → Option Nat
  | JsonVal.num n => some n
  | _ => none

/-- An HTTP response: status code plus JSON body. -/
structure HttpResponse where
  status : Nat
  body : JsonVal

/-- The serializer representation of a Thing: exactly the fields
`('id', 'name')`, from `ThingSerializer` in src/app/api/thing.py. -/
def representThing (t : Thing) : JsonVal :=
  JsonVal.obj [("id", JsonVal.num t.id), ("name", JsonVal.str t.name)]

/-- The 400 body `name ↦ [message]` reported for a validation error. -/
def errorBody (e : ValidationError) : JsonVal :=
  JsonVal.obj [("name", JsonVal.arr [JsonVal.str (errorMessage e)])]

/-- Modelled from the spec: `create` (spec section 4.2): run the
validation rule; on success assign a fresh id, append the entity and
answer 201 with the created representation; on a validation error answer
400 with `name ↦ [message]`, leaving the store unchanged. -/
def create (st : Store) (name : List Char) : Store × HttpResponse :=
  match validate name with
  | Except.error e => (st, ⟨400, errorBody e⟩)
  | Except.ok trimmed =>
      (⟨st.things ++ [⟨st.nextId, trimmed⟩], st.nextId + 1⟩,
       ⟨201, representThing ⟨st.nextId, trimmed⟩⟩)

/-- Modelled from the spec: `retrieve` (spec section 4.2): 200 with the
representation when the id is found, 404 otherwise. -/
def retrieve (st : Store) (i : Nat) : HttpResponse :=
  match st.things.find? (fun t => t.id == i) with
  | some t => ⟨200, representThing t⟩
  | none => ⟨404, JsonVal.obj []⟩

/-- Modelled from the spec: `list` (spec section 4.2): 200 with all
stored Things, in insertion order. -/
def listThings (st : Store) : HttpResponse :=
  ⟨200, JsonVal.arr (st.things.map representThing)⟩

/-- The `name` string of a response body, when present. -/
def nameOf (r : HttpResponse) : Option (List Char) :=
  (getField r.body "name").bind asStr

/-- The id carried by a 201 create response. -/
def createdId (p : Store × HttpResponse) : Option Nat :=
  if p.2.status = 201 then (getField p.2.body "id").bind asNum else none

/-- Stores reachable from the empty store by create requests (retrieve
and list do not change the store). -/
inductive Reachable : Store → Prop where
  | init : Reachable emptyStore
  | step (st : Store) (name : List Char) :
      Reachable st → Reachable (create st name).1

/-- Run a sequence of create requests from the empty store. -/
def runRequests (names : List (List Char)) : Store :=
  names.foldl (fun st n => (create st n).1) emptyStore

/-- The Things persisted by a sequence of create requests, ids assigned
from `k` on, in the order the successful requests arrive. -/
def expectedThings (names : List (List Char)) (k : Nat) : List Thing :=
  match names with
  | [] => []
  | n :: rest =>
      match validate n with
      | Except.ok trimmed => ⟨k, trimmed⟩ :: expectedThings rest (k + 1)
      | Except.error _ => expectedThings rest k

/-! ### Helper lemmas about trimming -/

lemma dropWhile_length_le {α : Type} (p : α → Bool) (l : List α) :
    (l.dropWhile p).length ≤ l.length :=
  (List.dropWhile_suffix p).length_le

lemma rdropWhile_length_le {α : Type} (p : α → Bool) (l : List α) :
    (l.rdropWhile p).length ≤ l.length := by
  rw [List.rdropWhile, List.length_reverse]
  calc (l.reverse.dropWhile p).length ≤ l.reverse.length := dropWhile_length_le p _
    _ = l.length := List.length_reverse l

lemma head_false_of_dropWhile_eq_self {α : Type} {p : α → Bool} {a : α} {l : List α}
    (h : List.dropWhile p (a :: l) = a :: l) : p a = false := by
  cases hpa : p a with
  | false => rfl
  | true =>
      exfalso
      rw [List.dropWhile_cons, if_pos hpa] at h
      have hle := dropWhile_length_le p l
      rw [h] at hle
      simp only [List.length_cons] at hle
      omega

lemma dropWhile_rdropWhile {α : Type} (p : α → Bool) (m : List α)
    (hm : List.dropWhile p m = m) :
    List.dropWhile p (m.rdropWhile p) = m.rdropWhile p := by
  have hsplit0 : m = m.rdropWhile p ++ (m.reverse.takeWhile p).reverse := by
    calc m = m.reverse.reverse := (List.reverse_reverse m).symm
      _ = (m.reverse.takeWhile p ++ m.reverse.dropWhile p).reverse := by
            rw [List.takeWhile_append_dropWhile]
      _ = (m.reverse.dropWhile p).reverse ++ (m.reverse.takeWhile p).reverse := by
            rw [List.reverse_append]
      _ = m.rdropWhile p ++ (m.reverse.takeWhile p).reverse := rfl
  rcases h : m.rdropWhile p with _ | ⟨a, t⟩
  · simp
  · have hsplit : m = a :: (t ++ (m.reverse.takeWhile p).reverse) := by
      conv_lhs => rw [hsplit0, h]
      rw [List.cons_append]
    have hm' := hm
    rw [hsplit] at hm'
    have hpa : p a = false := head_false_of_dropWhile_eq_self hm'
    rw [List.dropWhile_cons, if_neg (by simp [hpa])]

lemma strip_idem (s : List Char) : strip (strip s) = strip s := by
  have h1 : List.dropWhile ws (List.dropWhile ws s) = List.dropWhile ws s :=
    List.dropWhile_idempotent ws s
  have h2 := dropWhile_rdropWhile ws (List.dropWhile ws s) h1
  unfold strip
  rw [h2]
  exact List.rdropWhile_idempotent ws (List.dropWhile ws s)

lemma strip_length_le (s : List Char) : (strip s).length ≤ s.length :=
  le_trans (rdropWhile_length_le ws (s.dropWhile ws)) (dropWhile_length_le ws s)

/-! ### Characterizations of the validation rule -/

lemma validate_ok_iff (s v : List Char) :
    validate s = Except.ok v ↔ strip s ≠ [] ∧ s.length ≤ 255 ∧ v = strip s := by
  constructor
  · intro h
    unfold validate at h
    by_cases h1 : strip s = []
    · rw [if_pos h1] at h
      exact absurd h (by simp)
    · rw [if_neg h1] at h
      by_cases h2 : s.length > 255
      · rw [if_pos h2] at h
        exact absurd h (by simp)
      · rw [if_neg h2] at h
        simp only [Except.ok.injEq] at h
        exact ⟨h1, by omega, h.symm⟩
  · rintro ⟨h1, h2, rfl⟩
    unfold validate
    rw [if_neg h1, if_neg (by omega)]

lemma validate_blank_iff (s : List Char) :
    validate s = Except.error ValidationError.BlankNameError ↔ strip s = [] := by
  constructor
  · intro h
    unfold validate at h
    by_cases h1 : strip s = []
    · exact h1
    · rw [if_neg h1] at h
      by_cases h2 : s.length > 255
      · rw [if_pos h2] at h
        simp only [Except.error.injEq] at h
        cases h
      · rw [if_neg h2] at h
        exact absurd h (by simp)
  · intro h
    unfold validate
    rw [if_pos h]

lemma validate_long_iff (s : List Char) :
    validate s = Except.error ValidationError.NameTooLongError ↔
      strip s ≠ [] ∧ 255 < s.length := by
  constructor
  · intro h
    unfold validate at h
    by_cases h1 : strip s = []
    · rw [if_pos h1] at h
      simp only [Except.error.injEq] at h
      cases h
    · rw [if_neg h1] at h
      by_cases h2 : s.length > 255
      · exact ⟨h1, h2⟩
      · rw [if_neg h2] at h
        exact absurd h (by simp)
  · rintro ⟨h1, h2⟩
    unfold validate
    rw [if_neg h1, if_pos h2]

/-! ### The store invariant maintained by create -/

/-- Invariant of every reachable store: assigned ids are below the next
id and pairwise distinct, and every stored name is a trimmed, non-blank
name within the length bound. -/
def StoreInv (st : Store) : Prop :=
  (∀ t ∈ st.things, t.id < st.nextId) ∧
  (st.things.map Thing.id).Nodup ∧
  (∀ t ∈ st.things, strip t.name = t.name ∧ t.name ≠ [] ∧ t.name.length ≤ 255)

lemma storeInv_empty : StoreInv emptyStore := by
  refine ⟨?_, ?_, ?_⟩ <;> simp [emptyStore]

lemma create_error_fst {st : Store} {s : List Char} {e : ValidationError}
    (hv : validate s = Except.error e) : (create st s).1 = st := by
  simp [create, hv]

lemma create_ok_fst {st : Store} {s v : List Char}
    (hv : validate s = Except.ok v) :
    (create st s).1 = ⟨st.things ++ [⟨st.nextId, v⟩], st.nextId + 1⟩ := by
  simp [create, hv]

lemma reachable_inv {st : Store} (h : Reachable st) : StoreInv st := by
  induction h with
  | init => exact storeInv_empty
  | step st name hst ih =>
      rcases hv : validate name with e | v
      · rw [create_error_fst hv]
        exact ih
      · obtain ⟨hne, hlen, hv'⟩ := (validate_ok_iff name v).mp hv
        obtain ⟨ih1, ih2, ih3⟩ := ih
        rw [create_ok_fst hv]
        refine ⟨?_, ?_, ?_⟩
        · intro t ht
          simp only [List.mem_append, List.mem_singleton] at ht
          rcases ht with ht | ht
          · exact Nat.lt_trans (ih1 t ht) (Nat.lt_succ_self _)
          · rw [ht]
            exact Nat.lt_succ_self _
        · rw [List.map_append]
          apply List.Nodup.append ih2 (List.nodup_singleton _)
          intro a ha hb
          simp only [List.map_cons, List.map_nil, List.mem_singleton] at hb
          simp only [List.mem_map] at ha
          obtain ⟨t, ht, rfl⟩ := ha
          have hlt := ih1 t ht
          rw [hb] at hlt
          exact lt_irrefl _ hlt
        · intro t ht
          simp only [List.mem_append, List.mem_singleton] at ht
          rcases ht with ht | ht
          · exact ih3 t ht
          · rw [ht, hv']
            exact ⟨strip_idem name, hne, le_trans (strip_length_le name) hlen⟩

lemma retrieve_appended {st : Store} (hids : ∀ t ∈ st.things, t.id < st.nextId)
    (v : List Char) :
    retrieve ⟨st.things ++ [⟨st.nextId, v⟩], st.nextId + 1⟩ st.nextId
      = ⟨200, representThing ⟨st.nextId, v⟩⟩ := by
  have h1 : st.things.find? (fun t => t.id == st.nextId) = none := by
    rw [List.find?_eq_none]
    intro t ht
    simp only [beq_iff_eq]
    exact Nat.ne_of_lt (hids t ht)
  simp [retrieve, List.find?_append, h1, List.find?]

lemma getField_represent_id (t : Thing) :
    getField (representThing t) "id" = some (JsonVal.num t.id) := rfl

lemma getField_represent_name (t : Thing) :
    getField (representThing t) "name" = some (JsonVal.str t.name) := rfl

lemma createdId_ok {st : Store} {s v : List Char}
    (hv : validate s = Except.ok v) :
    createdId (create st s) = some st.nextId := by
  have hsnd : (create st s).2 = ⟨201, representThing ⟨st.nextId, v⟩⟩ := by
    simp [create, hv]
  rw [createdId, hsnd]
  simp [getField_represent_id, asNum]

lemma createdId_error {st : Store} {s : List Char} {e : ValidationError}
    (hv : validate s = Except.error e) :
    createdId (create st s) = none := by
  have hsnd : (create st s).2 = ⟨400, errorBody e⟩ := by
    simp [create, hv]
  rw [createdId, hsnd]
  simp

lemma createdId_some {st : Store} {s : List Char} {i : Nat}
    (h : createdId (create st s) = some i) :
    i = st.nextId ∧ (create st s).1.nextId = st.nextId + 1 := by
  rcases hv : validate s with e | v
  · rw [createdId_error hv] at h
    cases h
  · rw [createdId_ok hv] at h
    simp only [Option.some.injEq] at h
    refine ⟨h.symm, ?_⟩
    rw [create_ok_fst hv]

lemma foldl_create_things (names : List (List Char)) :
    ∀ st : Store,
      (names.foldl (fun acc n => (create acc n).1) st).things
        = st.things ++ expectedThings names st.nextId := by
  induction names with
  | nil =>
      intro st
      simp [expectedThings]
  | cons n rest ih =>
      intro st
      rcases hv : validate n with e | v
      · rw [List.foldl_cons, create_error_fst hv, ih st]
        simp [expectedThings, hv]
      · rw [List.foldl_cons, create_ok_fst hv, ih]
        simp only [expectedThings, hv]
        rw [List.append_assoc, List.singleton_append]

lemma reachable_run {st : Store} (h : Reachable st) :
    ∃ names, runRequests names = st := by
  induction h with
  | init => exact ⟨[], rfl⟩
  | step st name hst ih =>
      obtain ⟨names, hn⟩ := ih
      refine ⟨names ++ [name], ?_⟩
      unfold runRequests at hn ⊢
      rw [List.foldl_append, hn]
      rfl

/-! ### Claim theorems -/

/-- C1 (counterexample): for the padded name " a " (non-blank after
trimming, length below 255), create persists the trimmed value, so the
subsequent fetch on the returned id answers the name "a", not the raw
input " a ".  The round-trip property as claimed therefore fails. -/
theorem roundtrip_raw_name_cex :
    (strip (" a ".toList) ≠ [] ∧ (" a ".toList).length < 255) ∧
    createdId (create emptyStore (" a ".toList)) = some 1 ∧
    nameOf (retrieve (create emptyStore (" a ".toList)).1 1) ≠
      some (" a ".toList) ∧
    nameOf (retrieve (create emptyStore (" a ".toList)).1 1) =
      some (strip (" a ".toList)) :=
  ⟨by decide, by decide, by decide, by decide⟩

/-- C1 (amended): for every string s with strip(s) non-empty and
len(s) < 255, create answers 201 with an id, and retrieving that id
yields a name equal to strip(s) (the trimmed value that was persisted),
hence equal to s whenever s carries no surrounding whitespace. -/
theorem roundtrip_trimmed_name (st : Store) (s : List Char)
    (hst : Reachable st) (h1 : strip s ≠ []) (h2 : s.length < 255) :
    (create st s).2.status = 201 ∧
    createdId (create st s) = some st.nextId ∧
    retrieve (create st s).1 st.nextId =
      ⟨200, representThing ⟨st.nextId, strip s⟩⟩ ∧
    nameOf (retrieve (create st s).1 st.nextId) = some (strip s) := by
  have hv := (validate_ok_iff s (strip s)).mpr ⟨h1, by omega, rfl⟩
  obtain ⟨hids, -, -⟩ := reachable_inv hst
  have hsnd : (create st s).2 = ⟨201, representThing ⟨st.nextId, strip s⟩⟩ := by
    simp [create, hv]
  have hret : retrieve (create st s).1 st.nextId =
      ⟨200, representThing ⟨st.nextId, strip s⟩⟩ := by
    rw [create_ok_fst hv]
    exact retrieve_appended hids (strip s)
  refine ⟨by rw [hsnd], createdId_ok hv, hret, ?_⟩
  rw [hret]
  simp [nameOf, getField_represent_name, asStr]

/-- C1 (witness): the amended round-trip at the concrete name "Alice"
from the empty store. -/
theorem roundtrip_trimmed_name_witness :
    (create emptyStore ("Alice".toList)).2.status = 201 ∧
    createdId (create emptyStore ("Alice".toList)) = some emptyStore.nextId ∧
    retrieve (create emptyStore ("Alice".toList)).1 emptyStore.nextId =
      ⟨200, representThing ⟨emptyStore.nextId, strip ("Alice".toList)⟩⟩ ∧
    nameOf (retrieve (create emptyStore ("Alice".toList)).1 emptyStore.nextId) =
      some (strip ("Alice".toList)) :=
  roundtrip_trimmed_name emptyStore ("Alice".toList) Reachable.init
    (by decide) (by decide)

/-- C2: for every string s whose trimmed form is empty (including the
empty string and whitespace-only strings), create with payload name = s
answers status 400 with body name ↦ ["This field may not be blank."]. -/
theorem blank_name_rejected (st : Store) (s : List Char)
    (h : strip s = []) :
    (create st s).2 =
      ⟨400, JsonVal.obj [("name",
        JsonVal.arr [JsonVal.str ("This field may not be blank.".toList)])]⟩ := by
  have hv := (validate_blank_iff s).mpr h
  simp [create, hv, errorBody, errorMessage]

/-- C2 (witness): the blank rejection at the concrete whitespace-only
name of a space, a tab and a newline. -/
theorem blank_name_rejected_witness :
    (create emptyStore (" \t\n".toList)).2 =
      ⟨400, JsonVal.obj [("name",
        JsonVal.arr [JsonVal.str ("This field may not be blank.".toList)])]⟩ :=
  blank_name_rejected emptyStore (" \t\n".toList) (by decide)

/-- C3: for every string s whose trimmed form is longer than 255
characters, create with payload name = s answers status 400 with body
name ↦ ["Ensure this field has no more than 255 characters."]: the
trimmed length bounds the raw length from below, so Rule B fires. -/
theorem long_trimmed_name_rejected (st : Store) (s : List Char)
    (h : 255 < (strip s).length) :
    (create st s).2 =
      ⟨400, JsonVal.obj [("name",
        JsonVal.arr [JsonVal.str
          ("Ensure this field has no more than 255 characters.".toList)])]⟩ := by
  have hne : strip s ≠ [] := by
    intro hh
    rw [hh] at h
    simp at h
  have hlen : 255 < s.length := lt_of_lt_of_le h (strip_length_le s)
  have hv := (validate_long_iff s).mpr ⟨hne, hlen⟩
  simp [create, hv, errorBody, errorMessage]

/-- C3 (witness): the length rejection at the concrete name of 256
repetitions of the letter x. -/
theorem long_trimmed_name_rejected_witness :
    (create emptyStore (List.replicate 256 'x')).2 =
      ⟨400, JsonVal.obj [("name",
        JsonVal.arr [JsonVal.str
          ("Ensure this field has no more than 255 characters.".toList)])]⟩ :=
  long_trimmed_name_rejected emptyStore (List.replicate 256 'x') (by decide)

/-- C4 (counterexample): a name of 256 spaces is longer than 255
characters, yet validation fails with BlankNameError (Rule A runs first
on the trimmed value) and the 400 body carries the blank message, not
the length message; so the claim does not hold for every over-long
string. -/
theorem length_check_whitespace_cex :
    255 < (List.replicate 256 (' ' : Char)).length ∧
    validate (List.replicate 256 (' ' : Char)) =
      Except.error ValidationError.BlankNameError ∧
    ValidationError.BlankNameError ≠ ValidationError.NameTooLongError ∧
    getField (create emptyStore (List.replicate 256 (' ' : Char))).2.body "name" =
      some (JsonVal.arr [JsonVal.str ("This field may not be blank.".toList)]) ∧
    "This field may not be blank.".toList ≠
      "Ensure this field has no more than 255 characters.".toList :=
  ⟨by decide, rfl, by decide, rfl, by decide⟩

/-- C4 (amended): the length check is evaluated on the raw, untrimmed
input: for every string s with len(s) > 255 whose trimmed form is
non-empty (so that the blank check of Rule A does not fire first),
validation fails with NameTooLongError and create answers 400 with the
length message. -/
theorem length_check_untrimmed (st : Store) (s : List Char)
    (hne : strip s ≠ []) (h : 255 < s.length) :
    validate s = Except.error ValidationError.NameTooLongError ∧
    (create st s).2 =
      ⟨400, JsonVal.obj [("name", JsonVal.arr [JsonVal.str
        ("Ensure this field has no more than 255 characters.".toList)])]⟩ := by
  have hv := (validate_long_iff s).mpr ⟨hne, h⟩
  exact ⟨hv, by simp [create, hv, errorBody, errorMessage]⟩

/-- C4 (witness): the untrimmed length check at the concrete name of 300
repetitions of the letter a. -/
theorem length_check_untrimmed_witness :
    validate (List.replicate 300 'a') =
      Except.error ValidationError.NameTooLongError ∧
    (create emptyStore (List.replicate 300 'a')).2 =
      ⟨400, JsonVal.obj [("name", JsonVal.arr [JsonVal.str
        ("Ensure this field has no more than 255 characters.".toList)])]⟩ :=
  length_check_untrimmed emptyStore (List.replicate 300 'a')
    (by decide) (by decide)

/-- C5: for every string s that passes both validation rules (trimmed
form non-empty and raw length within the bound), validation succeeds
with the trimmed value strip(s), and strip(s) is the value persisted for
the created Thing's name. -/
theorem valid_name_persists_trimmed (st : Store) (s : List Char)
    (h1 : strip s ≠ []) (h2 : s.length ≤ 255) :
    validate s = Except.ok (strip s) ∧
    (create st s).1.things = st.things ++ [⟨st.nextId, strip s⟩] := by
  have hv := (validate_ok_iff s (strip s)).mpr ⟨h1, h2, rfl⟩
  exact ⟨hv, by rw [create_ok_fst hv]⟩

/-- C5 (witness): the trimmed value "bob" is persisted for the concrete
padded name " bob ". -/
theorem valid_name_persists_trimmed_witness :
    validate (" bob ".toList) = Except.ok (strip (" bob ".toList)) ∧
    (create emptyStore (" bob ".toList)).1.things =
      emptyStore.things ++ [⟨emptyStore.nextId, strip (" bob ".toList)⟩] :=
  valid_name_persists_trimmed emptyStore (" bob ".toList)
    (by decide) (by decide)

/-- C6: a create whose name fails validation returns without persisting
anything: the store after the failed create equals the store before it;
and in every reachable store no Thing has an invalid name (every stored
name is non-blank after trimming and within the length bound). -/
theorem failed_create_preserves_store :
    (∀ (st : Store) (s : List Char) (e : ValidationError),
        validate s = Except.error e → (create st s).1 = st) ∧
    (∀ st : Store, Reachable st →
        ∀ t ∈ st.things, strip t.name ≠ [] ∧ t.name.length ≤ 255) := by
  constructor
  · intro st s e hv
    exact create_error_fst hv
  · intro st hst t ht
    obtain ⟨-, -, h3⟩ := reachable_inv hst
    obtain ⟨hts, htne, htlen⟩ := h3 t ht
    rw [hts]
    exact ⟨htne, htlen⟩

/-- C6 (witness): a failed create of a whitespace-only name leaves the
empty store unchanged, and the empty store holds no invalidly named
Thing. -/
theorem failed_create_preserves_store_witness :
    (create emptyStore ("   ".toList)).1 = emptyStore ∧
    ∀ t ∈ emptyStore.things, strip t.name ≠ [] ∧ t.name.length ≤ 255 :=
  ⟨failed_create_preserves_store.1 emptyStore ("   ".toList)
      ValidationError.BlankNameError rfl,
   failed_create_preserves_store.2 emptyStore Reachable.init⟩

/-- C7: two successful creates in sequence from any store assign
distinct ids, and in every reachable store the assigned ids are pairwise
distinct (no id is ever reused). -/
theorem created_ids_distinct :
    (∀ (st : Store) (s1 s2 : List Char) (i1 i2 : Nat),
        createdId (create st s1) = some i1 →
        createdId (create (create st s1).1 s2) = some i2 →
        i1 ≠ i2) ∧
    (∀ st : Store, Reachable st → (st.things.map Thing.id).Nodup) := by
  constructor
  · intro st s1 s2 i1 i2 h1 h2
    obtain ⟨hi1, hnext⟩ := createdId_some h1
    obtain ⟨hi2, -⟩ := createdId_some h2
    rw [hnext] at hi2
    omega
  · intro st hst
    exact (reachable_inv hst).2.1

/-- C7 (witness): creating "a" then "b" from the empty store assigns the
distinct ids 1 and 2, and the empty store's id list is duplicate-free. -/
theorem created_ids_distinct_witness :
    (1 : Nat) ≠ 2 ∧ (emptyStore.things.map Thing.id).Nodup :=
  ⟨created_ids_distinct.1 emptyStore ("a".toList) ("b".toList) 1 2 rfl rfl,
   created_ids_distinct.2 emptyStore Reachable.init⟩

/-- C8: every reachable store is produced by some sequence of create
requests, and after any sequence of create requests the list operation
answers 200 with all stored Things in insertion order: the Things of the
successful requests, in request order, with consecutively assigned
ids. -/
theorem list_insertion_order :
    (∀ st : Store, Reachable st → ∃ names, runRequests names = st) ∧
    (∀ names : List (List Char),
        listThings (runRequests names) =
          ⟨200, JsonVal.arr
            ((expectedThings names emptyStore.nextId).map representThing)⟩) := by
  constructor
  · intro st hst
    exact reachable_run hst
  · intro names
    have h : (runRequests names).things = expectedThings names emptyStore.nextId := by
      have h0 := foldl_create_things names emptyStore
      simpa [runRequests, emptyStore] using h0
    show (⟨200, JsonVal.arr ((runRequests names).things.map representThing)⟩ :
        HttpResponse) = _
    rw [h]

/-- C8 (witness): the insertion-order listing after the concrete request
sequence " a ", "" (rejected as blank), "b": the listing holds the
Things with ids 1 and 2 and names "a" and "b", in that order. -/
theorem list_insertion_order_witness :
    (∃ names, runRequests names = emptyStore) ∧
    listThings (runRequests [" a ".toList, "".toList, "b".toList]) =
      ⟨200, JsonVal.arr
        ((expectedThings [" a ".toList, "".toList, "b".toList]
          emptyStore.nextId).map representThing)⟩ :=
  ⟨list_insertion_order.1 emptyStore Reachable.init,
   list_insertion_order.2 [" a ".toList, "".toList, "b".toList]⟩

/-- C9: every representation produced by the API (the 201 create body
and the 200 retrieve body) is the serializer representation of some
Thing, and that representation carries exactly the two fields id and
name, in this order, and nothing else. -/
theorem representation_fields_exact :
    (∀ (st : Store) (s : List Char), (create st s).2.status = 201 →
        ∃ t : Thing, (create st s).2.body = representThing t) ∧
    (∀ (st : Store) (i : Nat), (retrieve st i).status = 200 →
        ∃ t : Thing, (retrieve st i).body = representThing t) ∧
    (∀ t : Thing, fieldNames (representThing t) = some ["id", "name"]) := by
  refine ⟨?_, ?_, ?_⟩
  · intro st s h
    rcases hv : validate s with e | v
    · have h400 : (create st s).2.status = 400 := by simp [create, hv]
      rw [h400] at h
      cases h
    · exact ⟨⟨st.nextId, v⟩, by simp [create, hv]⟩
  · intro st i h
    rcases hf : st.things.find? (fun t => t.id == i) with - | t
    · have h404 : (retrieve st i).status = 404 := by simp [retrieve, hf]
      rw [h404] at h
      cases h
    · have hr : retrieve st i = ⟨200, representThing t⟩ := by simp [retrieve, hf]
      exact ⟨t, by rw [hr]⟩
  · intro t
    rfl

/-- C9 (witness): the representation claims at the concrete name "w":
the create body and the retrieve body are Thing representations, and a
representation's keys are exactly id and name. -/
theorem representation_fields_exact_witness :
    (∃ t : Thing, (create emptyStore ("w".toList)).2.body = representThing t) ∧
    (∃ t : Thing,
        (retrieve (create emptyStore ("w".toList)).1 1).body = representThing t) ∧
    fieldNames (representThing ⟨7, "w".toList⟩) = some ["id", "name"] :=
  ⟨representation_fields_exact.1 emptyStore ("w".toList) rfl,
   representation_fields_exact.2.1 (create emptyStore ("w".toList)).1 1 rfl,
   representation_fields_exact.2.2 ⟨7, "w".toList⟩⟩

/-- C10 (counterexample): at the concrete name of 255 letters x padded
with one trailing space (length 256, trimmed length 255, non-blank),
create answers status 400, not 201: Rule B measures the untrimmed
input. -/
theorem padded_long_name_cex :
    ((List.replicate 255 'x' ++ " ".toList).length ≥ 256 ∧
     strip (List.replicate 255 'x' ++ " ".toList) ≠ [] ∧
     (strip (List.replicate 255 'x' ++ " ".toList)).length ≤ 255) ∧
    (create emptyStore (List.replicate 255 'x' ++ " ".toList)).2.status = 400 ∧
    (400 : Nat) ≠ 201 :=
  ⟨by decide, by decide, by decide⟩

/-- C10 (amended): for every string s with len(s) ≥ 256 whose trimmed
form is non-empty and of length at most 255, create is rejected for
length with status 400 and the length message; on exactly such inputs
the untrimmed length condition of Rule B and the trimmed length
condition of the length-rejection property disagree. -/
theorem padded_long_name_rejected (st : Store) (s : List Char)
    (h1 : 256 ≤ s.length) (h2 : strip s ≠ []) (h3 : (strip s).length ≤ 255) :
    (create st s).2 =
      ⟨400, JsonVal.obj [("name", JsonVal.arr [JsonVal.str
        ("Ensure this field has no more than 255 characters.".toList)])]⟩ ∧
    ¬(255 < s.length ↔ 255 < (strip s).length) := by
  have hv := (validate_long_iff s).mpr ⟨h2, by omega⟩
  constructor
  · simp [create, hv, errorBody, errorMessage]
  · intro hiff
    have := hiff.mp (by omega)
    omega

/-- C10 (witness): the padded-length rejection at the concrete name of
255 letters x followed by one space. -/
theorem padded_long_name_rejected_witness :
    (create emptyStore (List.replicate 255 'x' ++ " ".toList)).2 =
      ⟨400, JsonVal.obj [("name", JsonVal.arr [JsonVal.str
        ("Ensure this field has no more than 255 characters.".toList)])]⟩ ∧
    ¬(255 < (List.replicate 255 'x' ++ " ".toList).length ↔
        255 < (strip (List.replicate 255 'x' ++ " ".toList)).length) :=
  padded_long_name_rejected emptyStore (List.replicate 255 'x' ++ " ".toList)
    (by decide) (by decide) (by decide)

end GabbiDemo
